import Mathlib

/-!
Verification of the MPAS-to-regular-grid converter
(`src/data_converter.py`, class `MPASDataConverter`).

Shallow embedding conventions:
* Machine floats become exact rationals (`ℚ`); the float literal `1e-10`
  becomes the exact rational `1 / 10^10`.  The claims under scrutiny are
  stated "in exact arithmetic", which this matches.
* `np.nan`, used as the missing-value sentinel, is embedded as
  `Option.none`: a gridded value is `Option ℚ`, `some x` for a finite
  interpolated value and `none` for the non-finite sentinel.
* The `sklearn` `BallTree` is an external library.  Its query output
  (per grid point: 3 neighbor indices and 3 angular distances, ascending
  by distance) is taken as the input of the embedded pipeline, exactly
  where `_build_interpolation_indices` consumes it (line 169 of the
  source).  Everything from line 172 on is embedded faithfully.
* Arrays indexed by grid point / neighbor / mesh cell become functions
  out of `Fin`; the 2D grid of shape (R, C) is flattened row-major to
  `Fin (R * C)` exactly as `np.ravel`/`reshape` do in the source.
-/

namespace MPASConvert

/-- The denominator guard `1e-10` of `data_converter.py` line 175,
as an exact rational. -/
def eps : ℚ := 1 / 10 ^ 10

/-- Earth mean radius in km (line 172: `distances * 6371.0`). -/
def earthRadiusKm : ℚ := 6371

/-- Raw inverse-distance weight of one neighbor at distance `d` km:
`1.0 / (distances_km**2 + 1e-10)` (line 175). -/
def rawWeight (d : ℚ) : ℚ := 1 / (d ^ 2 + eps)

/-- Result of the BallTree query `tree.query(grid_coords, k=3)`
(line 169): for each of the `P` flattened grid points, the indices of
its 3 nearest mesh cells (into a mesh of `N` cells) and their angular
distances in radians.  The library contract is that column 0 holds the
nearest (smallest-distance) neighbor. -/
structure QueryResult (N P : ℕ) where
  indices : Fin P → Fin 3 → Fin N
  distances : Fin P → Fin 3 → ℚ

/-- The dictionary returned by `_build_interpolation_indices`
(lines 184-190): neighbor indices, distances in km, normalized inverse
distance weights, and the validity mask. -/
structure InterpData (N P : ℕ) where
  indices : Fin P → Fin 3 → Fin N
  distances_km : Fin P → Fin 3 → ℚ
  weights : Fin P → Fin 3 → ℚ
  valid_mask : Fin P → Bool

/-- `_build_interpolation_indices` (lines 172-190), downstream of the
tree query: convert angular distances to km (`* 6371.0`), compute raw
weights `1/(d² + 1e-10)`, normalize per grid point by the row sum, and
set `valid_mask = distances_km[:, 0] <= max_dist_km`. -/
def build_interpolation_indices (q : QueryResult N P) (max_dist_km : ℚ) :
    InterpData N P :=
  let dkm : Fin P → Fin 3 → ℚ := fun p i => q.distances p i * earthRadiusKm
  { indices := q.indices
    distances_km := dkm
    weights := fun p i => rawWeight (dkm p i) / ∑ j, rawWeight (dkm p j)
    valid_mask := fun p => decide (dkm p 0 ≤ max_dist_km) }

/-- `_interpolate_to_grid`, 1D-field branch (lines 215-221), before the
final reshape: `data_interp = np.sum(data_mpas[indices] * weights, axis=1)`
then `np.where(valid_mask, data_interp, np.nan)`.  `none` embeds the
`np.nan` written at masked-out points. -/
def interpolate_flat (a : InterpData N P) (data_mpas : Fin N → ℚ) :
    Fin P → Option ℚ :=
  fun p =>
    if a.valid_mask p then some (∑ i, data_mpas (a.indices p i) * a.weights p i)
    else none

/-- Each raw weight is strictly positive: `d² + 1e-10 > 0` always. -/
lemma rawWeight_pos (d : ℚ) : 0 < rawWeight d := by
  have h : (0 : ℚ) < d ^ 2 + eps := by
    have : (0 : ℚ) < eps := by norm_num [eps]
    positivity
  exact div_pos one_pos h

/-- The per-grid-point sum of the three raw weights is positive. -/
lemma sum_rawWeight_pos (d : Fin 3 → ℚ) : 0 < ∑ j, rawWeight (d j) :=
  Finset.sum_pos (fun j _ => rawWeight_pos (d j)) ⟨0, Finset.mem_univ 0⟩

/-- Shared helper: the three normalized weights of any grid point of a
built `InterpData` sum to exactly 1. -/
lemma weights_sum_eq_one (q : QueryResult N P) (max_dist_km : ℚ) (p : Fin P) :
    ∑ i, (build_interpolation_indices q max_dist_km).weights p i = 1 := by
  have hpos := sum_rawWeight_pos (fun i => q.distances p i * earthRadiusKm)
  simp only [build_interpolation_indices]
  rw [← Finset.sum_div]
  exact div_self (ne_of_gt hpos)

/-- C1: for every target grid point, the i-th of the 3 nearest mesh
neighbors gets raw weight `1/(distance_km_i² + 1e-10)`; the stored weight
is that raw weight divided by the sum of the three raw weights of the
same grid point; and, in exact arithmetic, the three normalized weights
sum to 1. -/
theorem weights_are_normalized_inverse_square (q : QueryResult N P)
    (max_dist_km : ℚ) (p : Fin P) :
    (∀ i, (build_interpolation_indices q max_dist_km).weights p i =
        (1 / ((q.distances p i * earthRadiusKm) ^ 2 + 1 / 10 ^ 10)) /
          ∑ j, 1 / ((q.distances p j * earthRadiusKm) ^ 2 + 1 / 10 ^ 10)) ∧
    ∑ i, (build_interpolation_indices q max_dist_km).weights p i = 1 := by
  refine ⟨fun i => ?_, weights_sum_eq_one q max_dist_km p⟩
  simp only [build_interpolation_indices, rawWeight, eps]

/-- C2: the validity flag of a grid point is true iff the km distance to
its first (nearest) neighbor is at most `max_dist_km`; it is unchanged
under any modification of the query that keeps the first distance fixed
(so it does not depend on the second or third neighbor); and it is
antitone in the nearest distance: a point whose nearest distance is
smaller than that of a valid point is itself valid, so validity flips
from true to false as the nearest distance grows past the threshold and
never back. -/
theorem valid_mask_nearest_only (q q' : QueryResult N P) (max_dist_km : ℚ)
    (p p' : Fin P) :
    ((build_interpolation_indices q max_dist_km).valid_mask p = true ↔
      (build_interpolation_indices q max_dist_km).distances_km p 0 ≤ max_dist_km) ∧
    (q'.distances p' 0 = q.distances p 0 →
      (build_interpolation_indices q' max_dist_km).valid_mask p' =
        (build_interpolation_indices q max_dist_km).valid_mask p) ∧
    ((build_interpolation_indices q max_dist_km).distances_km p 0 ≤
        (build_interpolation_indices q' max_dist_km).distances_km p' 0 →
      (build_interpolation_indices q' max_dist_km).valid_mask p' = true →
      (build_interpolation_indices q max_dist_km).valid_mask p = true) := by
  refine ⟨?_, ?_, ?_⟩
  · simp [build_interpolation_indices]
  · intro h
    simp [build_interpolation_indices, h]
  · intro hle hval
    simp only [build_interpolation_indices, decide_eq_true_eq] at hle hval ⊢
    exact le_trans hle hval

/-- Concrete one-point query whose single grid point is on top of the
single mesh cell (angular distance 0, hence 0 km, within any
nonnegative threshold). -/
def qNear : QueryResult 1 1 := ⟨fun _ _ => 0, fun _ _ => 0⟩

/-- Concrete one-point query whose single grid point is 1 radian
(6371 km) away from every neighbor — far beyond a 30 km threshold. -/
def qFar : QueryResult 1 1 := ⟨fun _ _ => 0, fun _ _ => 1⟩

/-- Witness for `valid_mask_nearest_only` at concrete inputs. -/
theorem valid_mask_nearest_only_witness :
    (build_interpolation_indices qNear 30).valid_mask 0 = true ∧
      (build_interpolation_indices qFar 30).valid_mask 0 = false := by
  constructor
  · exact (valid_mask_nearest_only qNear qNear 30 0 0).1.mpr
      (by norm_num [build_interpolation_indices, qNear, earthRadiusKm])
  · have h : ¬(build_interpolation_indices qFar 30).valid_mask 0 = true := by
      rw [(valid_mask_nearest_only qFar qFar 30 0 0).1]
      norm_num [build_interpolation_indices, qFar, earthRadiusKm]
    exact Bool.eq_false_iff.mpr h

/-- C3: field application writes the `none` sentinel (embedding `np.nan`)
at every grid point whose validity flag is false and the weighted
neighbor sum at every grid point whose flag is true; it is total — the
result is defined (`some` or the sentinel) for every point, so
out-of-coverage points are handled by masking alone and never make the
conversion fail. -/
theorem interpolate_masks_by_validity (a : InterpData N P) (data_mpas : Fin N → ℚ)
    (p : Fin P) :
    (a.valid_mask p = false → interpolate_flat a data_mpas p = none) ∧
    (a.valid_mask p = true →
      interpolate_flat a data_mpas p =
        some (∑ i, data_mpas (a.indices p i) * a.weights p i)) ∧
    (interpolate_flat a data_mpas p).isSome = a.valid_mask p := by
  refine ⟨fun h => ?_, fun h => ?_, ?_⟩
  · simp [interpolate_flat, h]
  · simp [interpolate_flat, h]
  · by_cases h : a.valid_mask p <;> simp [interpolate_flat, h]

/-- Witness for `interpolate_masks_by_validity` at concrete inputs. -/
theorem interpolate_masks_by_validity_witness :
    interpolate_flat (build_interpolation_indices qFar 30) (fun _ => (5 : ℚ)) 0 =
        none ∧
      interpolate_flat (build_interpolation_indices qNear 30) (fun _ => (5 : ℚ)) 0 =
        some (∑ i, (fun _ => (5 : ℚ))
            ((build_interpolation_indices qNear 30).indices 0 i) *
          (build_interpolation_indices qNear 30).weights 0 i) := by
  constructor
  · exact (interpolate_masks_by_validity _ _ 0).1
      (by norm_num [build_interpolation_indices, qFar, earthRadiusKm])
  · exact (interpolate_masks_by_validity _ _ 0).2.1
      (by norm_num [build_interpolation_indices, qNear, earthRadiusKm])

/-- C4: applying the built weights to a field that is the constant `c` at
every mesh cell yields exactly `c` at every valid grid point and the
missing sentinel at every invalid one, for every query result, grid
point and threshold. -/
theorem constant_field_roundtrip (q : QueryResult N P) (max_dist_km c : ℚ)
    (p : Fin P) :
    interpolate_flat (build_interpolation_indices q max_dist_km) (fun _ => c) p =
      if (build_interpolation_indices q max_dist_km).valid_mask p then some c
      else none := by
  have hsum := weights_sum_eq_one q max_dist_km p
  by_cases h : (build_interpolation_indices q max_dist_km).valid_mask p
  · simp [interpolate_flat, h, ← Finset.mul_sum, hsum]
  · simp [interpolate_flat, h]

/-- Row-major flattening of the (R, C) grid, exactly as `np.ravel` /
`reshape(grid_shape)` pair up flat index `r*C + c` with cell `(r, c)`
(lines 163-166 and 224/239). -/
def flatIdx (R C : ℕ) (r : Fin R) (c : Fin C) : Fin (R * C) :=
  ⟨r.val * C + c.val, by
    have h1 : r.val * C + c.val < (r.val + 1) * C := by
      rw [Nat.succ_mul]
      exact Nat.add_lt_add_left c.isLt _
    exact lt_of_lt_of_le h1 (Nat.mul_le_mul_right C r.isLt)⟩

/-- `_interpolate_to_grid`, 1D branch after the reshape (lines 215-224):
the (r, c) entry of the 2D output. -/
def interpolate_to_grid_2d (a : InterpData N (R * C)) (data_mpas : Fin N → ℚ)
    (r : Fin R) (c : Fin C) : Option ℚ :=
  interpolate_flat a data_mpas (flatIdx R C r c)

/-- `_interpolate_to_grid`, 2D-data branch (lines 226-239): the output has
shape (R, C, n_levels) — level axis LAST — and its (r, c, lev) entry is the
1D interpolation of the level-`lev` slice `data_mpas[:, lev]`. -/
def interpolate_to_grid_3d (a : InterpData N (R * C)) (data_mpas : Fin N → Fin L → ℚ)
    (r : Fin R) (c : Fin C) (l : Fin L) : Option ℚ :=
  interpolate_flat a (fun n => data_mpas n l) (flatIdx R C r c)

/-- `convert_diag_file`, 3D-variable assembly (lines 626-632):
`data_grid[t, lev, :, :] = data_interp[:, :, lev]` with
`data_interp = _interpolate_to_grid(interp_data, var.isel(Time=t))` —
the output is indexed (time, level, lat, lon). -/
def convert_var_3d (a : InterpData N (R * C)) (var : Fin T → Fin N → Fin L → ℚ)
    (t : Fin T) (l : Fin L) (r : Fin R) (c : Fin C) : Option ℚ :=
  interpolate_to_grid_3d a (var t) r c l

/-- `convert_diag_file`, 2D-variable assembly (lines 634-639 and 650-655):
`data_grid[t, :, :] = _interpolate_to_grid(interp_data, var.isel(Time=t))` —
the output is indexed (time, lat, lon). -/
def convert_var_2d (a : InterpData N (R * C)) (var : Fin T → Fin N → ℚ)
    (t : Fin T) (r : Fin R) (c : Fin C) : Option ℚ :=
  interpolate_to_grid_2d a (var t) r c

/-- C6: for weights built over a grid of shape (R, C), the assembled
output of a field with time and level axes is indexed
(time, level, lat, lon) — its (t, l, r, c) entry is the flat interpolation
of the mesh slice at time t and level l at grid cell r*C + c — and the
output of a field with only a time axis is indexed (time, lat, lon)
likewise: the mesh axis is replaced by the (R, C) axes, time leads, and a
level axis precedes the spatial axes. -/
theorem gridded_output_axis_order (a : InterpData N (R * C))
    (var3 : Fin T → Fin N → Fin L → ℚ) (var2 : Fin T → Fin N → ℚ)
    (t : Fin T) (l : Fin L) (r : Fin R) (c : Fin C) :
    (convert_var_3d a var3 t l r c =
      if a.valid_mask (flatIdx R C r c) then
        some (∑ i, var3 t (a.indices (flatIdx R C r c) i) l *
          a.weights (flatIdx R C r c) i)
      else none) ∧
    (convert_var_2d a var2 t r c =
      if a.valid_mask (flatIdx R C r c) then
        some (∑ i, var2 t (a.indices (flatIdx R C r c) i) *
          a.weights (flatIdx R C r c) i)
      else none) :=
  ⟨rfl, rfl⟩

/-- An upper bound on the raw weight of a neighbor at least 1/1000 km
(one meter) away: `1/(d² + ε) ≤ 10^6`. -/
lemma rawWeight_le_of_one_meter (d : ℚ) (h : 1 / 1000 ≤ d) :
    rawWeight d ≤ 10 ^ 6 := by
  have hd2 : (1 / 1000 : ℚ) ^ 2 ≤ d ^ 2 := by
    have h0 : (0 : ℚ) ≤ 1 / 1000 := by norm_num
    exact pow_le_pow_left₀ h0 h 2
  have hpos : (0 : ℚ) < d ^ 2 + eps := by
    have : (0 : ℚ) < eps := by norm_num [eps]
    positivity
  rw [rawWeight, div_le_iff₀ hpos]
  rw [eps] at *
  nlinarith [hd2]

/-- C5 amended: if a grid point is coincident with its first (nearest)
mesh cell (angular distance 0) and the other two neighbors are each at
least 1/1000 km (one meter) away, then the coincident cell's normalized
weight exceeds 999/1000, and the interpolated value differs from the
source value at the coincident cell by at most `(1 - w₀)` times the
largest deviation of the other two neighbors' values — exact equality is
not guaranteed because the other two weights are strictly positive. -/
theorem coincident_cell_dominates (q : QueryResult N P) (max_dist_km : ℚ)
    (p : Fin P) (data : Fin N → ℚ)
    (h0 : q.distances p 0 = 0)
    (h1 : 1 / 1000 ≤ (build_interpolation_indices q max_dist_km).distances_km p 1)
    (h2 : 1 / 1000 ≤ (build_interpolation_indices q max_dist_km).distances_km p 2) :
    999 / 1000 < (build_interpolation_indices q max_dist_km).weights p 0 ∧
    |(∑ i, data ((build_interpolation_indices q max_dist_km).indices p i) *
        (build_interpolation_indices q max_dist_km).weights p i) -
      data ((build_interpolation_indices q max_dist_km).indices p 0)| ≤
    (1 - (build_interpolation_indices q max_dist_km).weights p 0) *
      max |data ((build_interpolation_indices q max_dist_km).indices p 1) -
            data ((build_interpolation_indices q max_dist_km).indices p 0)|
          |data ((build_interpolation_indices q max_dist_km).indices p 2) -
            data ((build_interpolation_indices q max_dist_km).indices p 0)| := by
  have hsum1 := weights_sum_eq_one q max_dist_km p
  simp only [build_interpolation_indices] at h1 h2 hsum1 ⊢
  set r : Fin 3 → ℚ := fun i => rawWeight (q.distances p i * earthRadiusKm) with hr
  set S : ℚ := ∑ j, r j with hSdef
  have hSpos : 0 < S := sum_rawWeight_pos (fun i => q.distances p i * earthRadiusKm)
  have hS3 : S = r 0 + r 1 + r 2 := Fin.sum_univ_three r
  have hr0 : r 0 = 10 ^ 10 := by
    simp only [hr, h0, zero_mul, rawWeight, eps]
    norm_num
  have hr1 : r 1 ≤ 10 ^ 6 := rawWeight_le_of_one_meter _ h1
  have hr2 : r 2 ≤ 10 ^ 6 := rawWeight_le_of_one_meter _ h2
  have hr1pos : 0 < r 1 := rawWeight_pos _
  have hr2pos : 0 < r 2 := rawWeight_pos _
  have hw0 : (999 : ℚ) / 1000 < r 0 / S := by
    rw [lt_div_iff₀ hSpos]
    rw [hS3] at *
    linarith
  refine ⟨hw0, ?_⟩
  rw [Fin.sum_univ_three] at hsum1 ⊢
  set v : Fin 3 → ℚ := fun i => data (q.indices p i) with hv
  set w : Fin 3 → ℚ := fun i => r i / S with hwdef
  have hw1 : (0 : ℚ) ≤ w 1 := le_of_lt (div_pos hr1pos hSpos)
  have hw2 : (0 : ℚ) ≤ w 2 := le_of_lt (div_pos hr2pos hSpos)
  have key : v 0 * w 0 + v 1 * w 1 + v 2 * w 2 - v 0 =
      w 1 * (v 1 - v 0) + w 2 * (v 2 - v 0) := by
    linear_combination v 0 * hsum1
  have hw0sum : 1 - w 0 = w 1 + w 2 := by linarith
  rw [key, hw0sum]
  set M : ℚ := max |v 1 - v 0| |v 2 - v 0| with hM
  calc |w 1 * (v 1 - v 0) + w 2 * (v 2 - v 0)|
      ≤ |w 1 * (v 1 - v 0)| + |w 2 * (v 2 - v 0)| := abs_add _ _
    _ = w 1 * |v 1 - v 0| + w 2 * |v 2 - v 0| := by
        rw [abs_mul, abs_mul, abs_of_nonneg hw1, abs_of_nonneg hw2]
    _ ≤ w 1 * M + w 2 * M := by
        have m1 : |v 1 - v 0| ≤ M := le_max_left _ _
        have m2 : |v 2 - v 0| ≤ M := le_max_right _ _
        have := mul_le_mul_of_nonneg_left m1 hw1
        have := mul_le_mul_of_nonneg_left m2 hw2
        linarith
    _ = (w 1 + w 2) * M := by ring

/-- One grid point whose three nearest cells are cells 0, 1, 2, all at
angular distance 0 — a mesh with three cells stacked on the grid point. -/
def qCoincident : QueryResult 3 1 := ⟨fun _ i => i, fun _ _ => 0⟩

/-- One grid point coincident with cell 0 and one radian (6371 km) from
cells 1 and 2. -/
def qCoincidentFar : QueryResult 3 1 := ⟨fun _ i => i, fun _ => ![0, 1, 1]⟩

/-- Concrete field with three distinct cell values. -/
def vDistinct : Fin 3 → ℚ := ![1, 2, 3]

/-- Counterexample to C5 as stated: a grid point at distance 0 from its
(first) nearest mesh cell whose other two neighbors are also at distance
0, with field values 1, 2, 3.  The coincident cell's normalized weight
is 1/3, not above 0.999, and the interpolated value is 2, not the
source value 1 at the coincident cell. -/
theorem coincident_claim_counterexample :
    (build_interpolation_indices qCoincident 30).weights 0 0 = 1 / 3 ∧
    ¬(999 / 1000 < (build_interpolation_indices qCoincident 30).weights 0 0) ∧
    interpolate_flat (build_interpolation_indices qCoincident 30) vDistinct 0 =
      some 2 ∧
    vDistinct ((build_interpolation_indices qCoincident 30).indices 0 0) = 1 ∧
    (2 : ℚ) ≠ 1 := by
  have hw : (build_interpolation_indices qCoincident 30).weights 0 0 = 1 / 3 := by
    simp [build_interpolation_indices, qCoincident, rawWeight, eps,
      Fin.sum_univ_three]
    norm_num
  refine ⟨hw, by rw [hw]; norm_num, ?_, by simp [build_interpolation_indices,
    qCoincident, vDistinct], by norm_num⟩
  have hmask : (build_interpolation_indices qCoincident 30).valid_mask 0 = true := by
    simp [build_interpolation_indices, qCoincident]
  have hwj : ∀ j : Fin 3, (build_interpolation_indices qCoincident 30).weights 0 j
      = 1 / 3 := by
    intro j
    fin_cases j <;>
      (simp [build_interpolation_indices, qCoincident, rawWeight, eps,
        Fin.sum_univ_three]; norm_num)
  rw [interpolate_flat]
  simp only [hmask, if_true]
  rw [Fin.sum_univ_three, hwj 0, hwj 1, hwj 2]
  simp [build_interpolation_indices, qCoincident, vDistinct]
  norm_num

/-- Witness for `coincident_cell_dominates` at concrete inputs. -/
theorem coincident_cell_dominates_witness :
    999 / 1000 < (build_interpolation_indices qCoincidentFar 30).weights 0 0 :=
  (coincident_cell_dominates qCoincidentFar 30 0 vDistinct
    (by simp [qCoincidentFar])
    (by norm_num [build_interpolation_indices, qCoincidentFar, earthRadiusKm,
      Matrix.cons_val_one, Matrix.head_cons])
    (by norm_num [build_interpolation_indices, qCoincidentFar, earthRadiusKm,
      Matrix.cons_val_two, Matrix.tail_cons, Matrix.head_cons])).1

/-- Field application as actually executed: the numpy gather
`data_mpas[indices]` (line 218) checks each index against the length of
the field actually passed in, not against the mesh size the weights were
built for — there is no explicit shape check in `_interpolate_to_grid`.
An out-of-bounds index raises `IndexError`, modeled by the outer `none`;
otherwise every grid point gets its masked weighted sum. -/
def apply_field (a : InterpData N P) (field : List ℚ) :
    Option (Fin P → Option ℚ) :=
  if h : ∀ (p : Fin P) (i : Fin 3), (a.indices p i : ℕ) < field.length then
    some (fun p =>
      if a.valid_mask p then
        some (∑ i, field.get ⟨a.indices p i, h p i⟩ * a.weights p i)
      else none)
  else none

/-- The per-variable loop of `convert_diag_file` (lines 604-660): fields
of one file are interpolated in order; an exception from any field
escapes to the single `except` at line 680, so the remaining fields of
that file are not processed and the file conversion fails. -/
def convert_file_fields (a : InterpData N P) :
    List (List ℚ) → Option (List (Fin P → Option ℚ))
  | [] => some []
  | f :: fs =>
    match apply_field a f with
    | none => none
    | some g =>
      match convert_file_fields a fs with
      | none => none
      | some gs => some (g :: gs)

/-- The batch loop of `convert_all_diag_files` (lines 719-727): each
file is converted independently and its success recorded; a failed file
does not stop the loop. -/
def convert_all_files (a : InterpData N P) (files : List (List (List ℚ))) :
    List Bool :=
  files.map (fun fields => (convert_file_fields a fields).isSome)

/-- Weights over a 2-cell mesh for a single grid point: neighbor 0 is
cell 0, neighbors 1 and 2 are cell 1, all at angular distance 0. -/
def qTwoCells : QueryResult 2 1 := ⟨fun _ => ![0, 1, 1], fun _ _ => 0⟩

/-- Counterexample to C7 as stated: weights built over a mesh of size
N = 2 applied to a field of mesh-axis length 3 ≠ 2 do NOT fail — the
application silently succeeds (the code has no `ShapeMismatchError` and
performs no mesh-size check; extra cells are ignored). -/
theorem shape_mismatch_counterexample :
    ([(10 : ℚ), 20, 30].length ≠ 2) ∧
    (apply_field (build_interpolation_indices qTwoCells 30)
        [(10 : ℚ), 20, 30]).isSome = true := by
  constructor
  · simp
  · rw [apply_field, dif_pos]
    · rfl
    · intro p i
      fin_cases p
      fin_cases i <;> simp [build_interpolation_indices, qTwoCells]

/-- C7 amended: field application succeeds exactly when every gathered
neighbor index is within the field passed in — in particular any field at
least as long as the mesh is silently accepted, and a too-short field
fails with an out-of-bounds indexing error, not a dedicated shape error;
a failing field aborts the remaining fields of its own file, while the
batch over files records one outcome per file and never stops early. -/
theorem apply_field_no_shape_check (a : InterpData N P) (field : List ℚ)
    (fields : List (List ℚ)) (files : List (List (List ℚ))) :
    ((apply_field a field).isSome = true ↔
      ∀ (p : Fin P) (i : Fin 3), (a.indices p i : ℕ) < field.length) ∧
    (N ≤ field.length → (apply_field a field).isSome = true) ∧
    (apply_field a field = none →
      convert_file_fields a (field :: fields) = none) ∧
    (convert_all_files a files).length = files.length := by
  have hiff : (apply_field a field).isSome = true ↔
      ∀ (p : Fin P) (i : Fin 3), (a.indices p i : ℕ) < field.length := by
    by_cases h : ∀ (p : Fin P) (i : Fin 3), (a.indices p i : ℕ) < field.length
    · simp [apply_field, h]
    · simp [apply_field, h]
  refine ⟨hiff, ?_, ?_, ?_⟩
  · intro hN
    exact hiff.mpr (fun p i => lt_of_lt_of_le (a.indices p i).isLt hN)
  · intro h
    simp [convert_file_fields, h]
  · simp [convert_all_files]

/-- Witness for `apply_field_no_shape_check` at concrete inputs. -/
theorem apply_field_no_shape_check_witness :
    (apply_field (build_interpolation_indices qTwoCells 30)
        [(10 : ℚ), 20]).isSome = true ∧
    convert_file_fields (build_interpolation_indices qTwoCells 30)
        ([] :: [[(1 : ℚ)]]) = none ∧
    (convert_all_files (build_interpolation_indices qTwoCells 30)
        [[[(1 : ℚ)]], [[]]]).length = 2 := by
  have hempty : apply_field (build_interpolation_indices qTwoCells 30)
      ([] : List ℚ) = none := by
    rw [apply_field, dif_neg]
    intro h
    exact absurd (h 0 0) (by simp)
  refine ⟨?_, ?_, ?_⟩
  · exact (apply_field_no_shape_check (build_interpolation_indices qTwoCells 30)
      [(10 : ℚ), 20] [] []).2.1 (by simp)
  · exact (apply_field_no_shape_check (build_interpolation_indices qTwoCells 30)
      [] [[(1 : ℚ)]] []).2.2.1 hempty
  · exact (apply_field_no_shape_check (build_interpolation_indices qTwoCells 30)
      [] [] [[[(1 : ℚ)]], [[]]]).2.2.2

/-- A dataset variable as the detectors see it: its name and its ordered
dims, each a (dimension name, size) pair. -/
structure MPASVar where
  name : String
  dims : List (String × ℕ)

/-- The axis names of a variable (`var.dims` in xarray exposes names;
sizes live alongside but are never consulted by the detectors). -/
def dimNames (v : MPASVar) : List String := v.dims.map Prod.fst

/-- The closed set of recognized vertical dimensions
(`_detect_3d_variables` lines 259-265, repeated at 296-299). -/
def vertical_dims : List String :=
  ["nVertLevels", "nVertLevelsP1", "nSoilLevels", "t_iso_levels", "nIsoLevelsT"]

/-- The non-spatial names `_detect_2d_variables` skips (line 302). -/
def skip_vars : List String := ["xtime", "initial_time"]

/-- `has_vertical = any(vdim in var.dims for vdim in vertical_dims)`
(line 273 / line 315). -/
def has_vertical (v : MPASVar) : Bool :=
  vertical_dims.any (fun vd => (dimNames v).contains vd)

/-- Membership test of `_detect_3d_variables` (lines 267-276): keep a
variable iff `nCells` is among its dims and it has a vertical dim. -/
def is_3d_variable (v : MPASVar) : Bool :=
  (dimNames v).contains "nCells" && has_vertical v

/-- Membership test of `_detect_2d_variables` (lines 304-318): keep a
variable iff its name is not skipped, `nCells` is among its dims, and it
has no vertical dim. -/
def is_2d_variable (v : MPASVar) : Bool :=
  !skip_vars.contains v.name && (dimNames v).contains "nCells" &&
    !has_vertical v

/-- `_detect_3d_variables`: names of the variables kept by the 3D test. -/
def detect_3d_variables (ds : List MPASVar) : List String :=
  (ds.filter is_3d_variable).map MPASVar.name

/-- `_detect_2d_variables`: names of the variables kept by the 2D test. -/
def detect_2d_variables (ds : List MPASVar) : List String :=
  (ds.filter is_2d_variable).map MPASVar.name

/-- C8: a variable is classified 3D iff it has the `nCells` dim and some
dim named in the closed vertical set; it is classified 2D iff it is not
named `xtime`/`initial_time`, has `nCells`, and has no vertical dim; no
variable is classified both; and classification depends only on the
variable's name and axis names — two variables agreeing on those but
with arbitrary axis sizes classify identically. -/
theorem variable_classification_by_names (v w : MPASVar)
    (hname : v.name = w.name) (hdims : dimNames v = dimNames w) :
    (is_3d_variable v = true ↔
      "nCells" ∈ dimNames v ∧ ∃ d ∈ vertical_dims, d ∈ dimNames v) ∧
    (is_2d_variable v = true ↔
      v.name ∉ skip_vars ∧ "nCells" ∈ dimNames v ∧
        ∀ d ∈ vertical_dims, d ∉ dimNames v) ∧
    ¬(is_3d_variable v = true ∧ is_2d_variable v = true) ∧
    is_3d_variable v = is_3d_variable w ∧
    is_2d_variable v = is_2d_variable w := by
  refine ⟨?_, ?_, ?_, ?_, ?_⟩
  · simp [is_3d_variable, has_vertical, List.any_eq_true]
  · simp [is_2d_variable, has_vertical, List.any_eq_true, and_assoc]
  · rintro ⟨h3, h2⟩
    simp [is_3d_variable, has_vertical, List.any_eq_true] at h3
    simp [is_2d_variable, has_vertical, List.any_eq_true] at h2
    obtain ⟨-, d, hd, hdv⟩ := h3
    exact absurd hdv (h2.2 d hd)
  · simp [is_3d_variable, has_vertical, hdims]
  · simp [is_2d_variable, has_vertical, hdims, hname]

/-- A 3D temperature variable on 100 cells and 55 levels. -/
def vTemp : MPASVar :=
  ⟨"temperature", [("Time", 1), ("nCells", 100), ("nVertLevels", 55)]⟩

/-- The same variable with every axis size changed. -/
def vTempResized : MPASVar :=
  ⟨"temperature", [("Time", 7), ("nCells", 3), ("nVertLevels", 2)]⟩

/-- Witness for `variable_classification_by_names` at concrete inputs. -/
theorem variable_classification_by_names_witness :
    is_3d_variable vTemp = true ∧
      is_3d_variable vTemp = is_3d_variable vTempResized := by
  have h := variable_classification_by_names vTemp vTempResized rfl rfl
  exact ⟨h.1.mpr (by simp [vTemp, dimNames, vertical_dims]), h.2.2.2.1⟩

/-- `np.degrees`: radians to degrees, `x * (180 / π)`. -/
noncomputable def np_degrees (x : ℝ) : ℝ := x * (180 / Real.pi)

/-- The MeshCoordinateSet handed to `_build_interpolation_tree` by
`convert_diag_file` (lines 543-544): the static file's radian
`latCell`/`lonCell` values converted to degrees — and nothing else; the
code contains no wrapping, clamping or normalization step. -/
noncomputable def mesh_coords_from_static (latCell lonCell : List ℝ) :
    List ℝ × List ℝ :=
  (latCell.map np_degrees, lonCell.map np_degrees)

/-- Counterexample to C9 as stated: a static file carrying the MPAS
convention `lonCell ∈ [0, 2π)` — here the single value 3π/2 — hands the
longitude 270° to spatial-index construction, which is not in
(-180, 180]: no normalization happened. -/
theorem lon_normalization_counterexample :
    (mesh_coords_from_static [] [3 * Real.pi / 2]).2 = [270] ∧
    ¬((270 : ℝ) ≤ 180) := by
  constructor
  · simp only [mesh_coords_from_static, List.map_cons, List.map_nil,
      np_degrees, List.cons.injEq, and_true]
    field_simp
    ring
  · norm_num

/-- C9 amended: the converter applies no normalization before indexing —
the coordinates handed to spatial-index construction are exactly the
static file's radian values scaled by 180/π — so the invariant
(latitude in [-90, 90], longitude in (-180, 180]) holds only when the
raw file values already lie in [-π/2, π/2] and (-π, π] respectively. -/
theorem mesh_coords_are_raw_degrees (latCell lonCell : List ℝ)
    (hlat : ∀ x ∈ latCell, -(Real.pi / 2) ≤ x ∧ x ≤ Real.pi / 2)
    (hlon : ∀ x ∈ lonCell, -Real.pi < x ∧ x ≤ Real.pi) :
    (mesh_coords_from_static latCell lonCell).1 =
      latCell.map (fun x => x * (180 / Real.pi)) ∧
    (mesh_coords_from_static latCell lonCell).2 =
      lonCell.map (fun x => x * (180 / Real.pi)) ∧
    (∀ y ∈ (mesh_coords_from_static latCell lonCell).1, -90 ≤ y ∧ y ≤ 90) ∧
    (∀ y ∈ (mesh_coords_from_static latCell lonCell).2,
      -180 < y ∧ y ≤ 180) := by
  have hscale : (0 : ℝ) < 180 / Real.pi := by positivity
  have hpi180 : Real.pi * (180 / Real.pi) = 180 := by
    field_simp
  have hpi90 : Real.pi / 2 * (180 / Real.pi) = 90 := by
    field_simp
    ring
  refine ⟨rfl, rfl, ?_, ?_⟩
  · intro y hy
    simp only [mesh_coords_from_static, List.mem_map] at hy
    obtain ⟨x, hx, rfl⟩ := hy
    obtain ⟨hx1, hx2⟩ := hlat x hx
    constructor
    · have := mul_le_mul_of_nonneg_right hx1 hscale.le
      rw [np_degrees]
      calc (-90 : ℝ) = -(Real.pi / 2) * (180 / Real.pi) := by
            rw [neg_mul, hpi90]
        _ ≤ x * (180 / Real.pi) := this
    · have := mul_le_mul_of_nonneg_right hx2 hscale.le
      rw [np_degrees]
      calc x * (180 / Real.pi) ≤ Real.pi / 2 * (180 / Real.pi) := this
        _ = 90 := hpi90
  · intro y hy
    simp only [mesh_coords_from_static, List.mem_map] at hy
    obtain ⟨x, hx, rfl⟩ := hy
    obtain ⟨hx1, hx2⟩ := hlon x hx
    constructor
    · have := mul_lt_mul_of_pos_right hx1 hscale
      rw [np_degrees]
      calc (-180 : ℝ) = -Real.pi * (180 / Real.pi) := by rw [neg_mul, hpi180]
        _ < x * (180 / Real.pi) := this
    · have := mul_le_mul_of_nonneg_right hx2 hscale.le
      rw [np_degrees]
      calc x * (180 / Real.pi) ≤ Real.pi * (180 / Real.pi) := this
        _ = 180 := hpi180

/-- Witness for `mesh_coords_are_raw_degrees` at concrete inputs. -/
theorem mesh_coords_are_raw_degrees_witness :
    -180 < np_degrees 0 ∧ np_degrees 0 ≤ 180 := by
  have hlat : ∀ x ∈ ([0] : List ℝ), -(Real.pi / 2) ≤ x ∧ x ≤ Real.pi / 2 := by
    intro x hx
    rw [List.mem_singleton] at hx
    subst hx
    constructor
    · have : (0 : ℝ) ≤ Real.pi / 2 := by positivity
      linarith
    · positivity
  have hlon : ∀ x ∈ ([0] : List ℝ), -Real.pi < x ∧ x ≤ Real.pi := by
    intro x hx
    rw [List.mem_singleton] at hx
    subst hx
    exact ⟨neg_lt_zero.mpr Real.pi_pos, Real.pi_pos.le⟩
  exact (mesh_coords_are_raw_degrees [0] [0] hlat hlon).2.2.2 (np_degrees 0)
    (List.mem_map_of_mem np_degrees (List.mem_singleton_self 0))

/-- `np.arange(start, stop, step)` in exact arithmetic, for `step > 0`:
the values `start + i*step` for natural `i` with `start + i*step < stop`,
i.e. `i < ⌈(stop - start) / step⌉` (empty when `stop ≤ start`). -/
def np_arange (start stop step : ℚ) : List ℚ :=
  (List.range ⌈(stop - start) / step⌉₊).map (fun i : ℕ => start + (i : ℚ) * step)

/-- One axis of `_create_regular_grid` (lines 99-100):
`np.arange(vmin, vmax + resolution, resolution)`. -/
def grid_axis_points (vmin vmax res : ℚ) : List ℚ :=
  np_arange vmin (vmax + res) res

/-- Index characterization of `np_arange` membership for positive step. -/
lemma lt_arange_len_iff (start stop step : ℚ) (hstep : 0 < step) (i : ℕ) :
    i < ⌈(stop - start) / step⌉₊ ↔ start + i * step < stop := by
  rw [Nat.lt_ceil, lt_div_iff₀ hstep]
  constructor <;> intro h <;> linarith

/-- Counterexample to C10 as stated: the bounds pair (lat_min, lat_max) =
(2, 0) with resolution 1 > 0 produces an EMPTY latitude axis, which
contains neither lat_min nor any point ≥ lat_max — the claim's
"consequently the grid always contains lat_min and a point ≥ lat_max"
fails when lat_min > lat_max + resolution. -/
theorem grid_extent_counterexample :
    (0 : ℚ) < 1 ∧ grid_axis_points 2 0 1 = [] ∧
      (2 : ℚ) ∉ grid_axis_points 2 0 1 := by
  have hempty : grid_axis_points 2 0 1 = [] := by
    rw [grid_axis_points, np_arange]
    have hceil : ⌈((0 : ℚ) + 1 - 2) / 1⌉₊ = 0 := by
      rw [Nat.ceil_eq_zero]
      norm_num
    rw [hceil]
    rfl
  exact ⟨by norm_num, hempty, by rw [hempty]; exact List.not_mem_nil 2⟩

/-- C10 amended (the claim holds under the additional hypothesis
`lat_min ≤ lat_max`, without which the axis can be empty): the axis is
exactly the points `vmin + i*res` for natural `i` with
`vmin + i*res < vmax + res`; it contains `vmin`; it contains a point
`≥ vmax`; every point is `< vmax + res` (so it overshoots the bound by
less than one resolution step); and when `vmax - vmin` is not a natural
multiple of `res`, some point lies strictly beyond `vmax`. -/
theorem grid_axis_characterization (vmin vmax res : ℚ) (hres : 0 < res)
    (hle : vmin ≤ vmax) :
    (∀ y ∈ grid_axis_points vmin vmax res, ∃ i : ℕ, y = vmin + i * res) ∧
    (∀ i : ℕ, vmin + i * res ∈ grid_axis_points vmin vmax res ↔
      vmin + i * res < vmax + res) ∧
    vmin ∈ grid_axis_points vmin vmax res ∧
    (∃ y ∈ grid_axis_points vmin vmax res, vmax ≤ y) ∧
    (∀ y ∈ grid_axis_points vmin vmax res, y < vmax + res) ∧
    ((¬∃ n : ℕ, vmax - vmin = n * res) →
      ∃ y ∈ grid_axis_points vmin vmax res, vmax < y) := by
  have hmem_iff : ∀ y : ℚ, y ∈ grid_axis_points vmin vmax res ↔
      ∃ i : ℕ, i < ⌈(vmax + res - vmin) / res⌉₊ ∧ vmin + i * res = y := by
    intro y
    simp only [grid_axis_points, np_arange, List.mem_map, List.mem_range]
  have hmem : ∀ i : ℕ, vmin + i * res ∈ grid_axis_points vmin vmax res ↔
      vmin + i * res < vmax + res := by
    intro i
    rw [hmem_iff]
    constructor
    · rintro ⟨j, hj, hji⟩
      rw [← hji]
      exact (lt_arange_len_iff vmin (vmax + res) res hres j).mp hj
    · intro hi
      exact ⟨i, (lt_arange_len_iff vmin (vmax + res) res hres i).mpr hi, rfl⟩
  set q : ℚ := (vmax - vmin) / res with hq
  have hq0 : 0 ≤ q := div_nonneg (by linarith) hres.le
  have hqres : q * res = vmax - vmin := div_mul_cancel₀ _ (ne_of_gt hres)
  have hceil_mem : vmin + ⌈q⌉₊ * res ∈ grid_axis_points vmin vmax res := by
    rw [hmem]
    have := Nat.ceil_lt_add_one hq0
    nlinarith
  have hceil_ge : vmax ≤ vmin + ⌈q⌉₊ * res := by
    have := Nat.le_ceil q
    nlinarith
  refine ⟨?_, hmem, ?_, ⟨_, hceil_mem, hceil_ge⟩, ?_, ?_⟩
  · intro y hy
    rw [hmem_iff] at hy
    obtain ⟨j, -, hji⟩ := hy
    exact ⟨j, hji.symm⟩
  · have h0 : vmin + (0 : ℕ) * res ∈ grid_axis_points vmin vmax res := by
      rw [hmem]
      push_cast
      linarith
    simpa using h0
  · intro y hy
    rw [hmem_iff] at hy
    obtain ⟨j, hj, hji⟩ := hy
    rw [← hji]
    exact (lt_arange_len_iff vmin (vmax + res) res hres j).mp hj
  · intro hnotmul
    refine ⟨vmin + ⌈q⌉₊ * res, hceil_mem, ?_⟩
    have hne : q ≠ (⌈q⌉₊ : ℚ) := by
      intro habs
      exact hnotmul ⟨⌈q⌉₊, by nlinarith⟩
    have hlt : q < (⌈q⌉₊ : ℚ) := lt_of_le_of_ne (Nat.le_ceil q) hne
    nlinarith

/-- Witness for `grid_axis_characterization` at concrete inputs:
bounds (0, 1) at resolution 2/5 — the span 1 is not a natural multiple
of 2/5, so the axis reaches strictly beyond the upper bound. -/
theorem grid_axis_characterization_witness :
    (0 : ℚ) ∈ grid_axis_points 0 1 (2 / 5) ∧
      ∃ y ∈ grid_axis_points 0 1 (2 / 5), (1 : ℚ) < y := by
  have h := grid_axis_characterization 0 1 (2 / 5) (by norm_num) (by norm_num)
  refine ⟨h.2.2.1, h.2.2.2.2.2 ?_⟩
  rintro ⟨n, hn⟩
  have h2 : ((2 * n : ℕ) : ℚ) = 5 := by
    push_cast
    linarith
  have h5 : (2 * n : ℕ) = 5 := Nat.cast_injective h2
  omega

end MPASConvert
